import Mathlib

/-!
Verification development for the ulat-ph backend (a Flask application, `app.py`).

The Lean definitions below are a shallow embedding of the Python source:

* the Supabase side of the application state (the `reports` table, the
  `sighting_clicks` and `resolved_clicks` tables, and the `reports-images`
  storage bucket) together with the JSON-file report store
  (`data/reports.json`) are modelled as one explicit `State` record;
* each route handler becomes a pure function from a `State` (plus the
  request data it reads) to a new `State` and a response value;
* Python float parsing of form fields is modelled by `pyFloat`, a parser
  for plain signed decimal literals (the subset of inputs relevant here);
* external-storage failures (image upload, image removal) are modelled by
  explicit boolean oracles, since the source wraps those calls in
  try/except blocks.
-/

namespace UlatPh

/-! ## Basic string helpers (models of the Python string operations used) -/

/-- Model of Python `s.split(c)` on a list of characters: splits at every
occurrence of `c`; the empty input yields one empty piece, matching Python. -/
def splitOnChar (c : Char) : List Char → List (List Char)
  | [] => [[]]
  | x :: xs =>
    let r := splitOnChar c xs
    if x = c then [] :: r
    else
      match r with
      | [] => [[x]]
      | h :: t => (x :: h) :: t

/-- Model of Python `s.rsplit('.', 1)`: if the string contains a dot, the
piece before the last dot and the piece after it; otherwise the whole string. -/
def rsplitDot (s : String) : List String :=
  let cs := s.toList
  if '.' ∈ cs then
    [String.mk ((cs.reverse.dropWhile (fun c => c != '.')).tail.reverse),
     String.mk ((cs.reverse.takeWhile (fun c => c != '.')).reverse)]
  else [s]

/-- Model of Python `s.lower()` restricted to ASCII letters (the source only
compares against the ASCII extension allow-list). -/
def lowerStr (s : String) : String := String.mk (s.toList.map Char.toLower)

/-- Decimal digit sequence to a natural number; `none` unless the list is a
nonempty run of digits. -/
def digitsVal (cs : List Char) : Option Nat :=
  if cs ≠ [] ∧ cs.all Char.isDigit then
    some (cs.foldl (fun n c => 10 * n + (c.toNat - 48)) 0)
  else none

/-- Unsigned part of the model of Python `float()` on plain decimal literals:
digits with an optional single dot; `"12."` and `".5"` parse, `"."` and
`"1.2.3"` do not. -/
def pyFloatCore (cs : List Char) : Option ℚ :=
  match splitOnChar '.' cs with
  | [ip] => (digitsVal ip).map (fun n => (n : ℚ))
  | [ip, fp] =>
    if ip = [] ∧ fp = [] then none
    else
      match (if ip = [] then some 0 else digitsVal ip),
            (if fp = [] then some 0 else digitsVal fp) with
      | some n, some f => some ((n : ℚ) + (f : ℚ) / (10 : ℚ) ^ fp.length)
      | _, _ => none
  | _ => none

/-- Model of Python `float(s)` restricted to optionally signed plain decimal
literals (no exponent, infinity, nan or surrounding whitespace forms, which
never occur in the coordinates this application handles). Returns `none`
where Python raises `ValueError`. -/
def pyFloat (s : String) : Option ℚ :=
  match s.toList with
  | '-' :: rest => (pyFloatCore rest).map (fun q => -q)
  | '+' :: rest => pyFloatCore rest
  | cs => pyFloatCore cs

/-- Model of the expression `float(v) if v else None` used for the latitude
and longitude form fields: outer `none` is a raised `ValueError` (caught by
the handler's blanket except), `some none` is SQL null for an empty field. -/
def toFloatField (v : String) : Option (Option ℚ) :=
  if v = "" then some none
  else
    match pyFloat v with
    | some q => some (some q)
    | none => none

/-! ## File-extension allow-list (`allowed_file`) -/

def ALLOWED_EXTENSIONS : List String := ["png", "jpg", "jpeg", "gif"]

/-- Embedding of `allowed_file` from the source:
`'.' in filename and filename.rsplit('.', 1)[1].lower() in ALLOWED_EXTENSIONS`. -/
def allowed_file (filename : String) : Bool :=
  decide ('.' ∈ filename.toList) &&
    decide (lowerStr ((rsplitDot filename).getD 1 "") ∈ ALLOWED_EXTENSIONS)

/-! ## Identity resolver (`get_client_ip`) -/

/-- The request data relevant to identity resolution. `xff` is the list of
`X-Forwarded-For` header values in order; `device_token` is any
client-supplied device token (the source never reads such a token, the field
exists so that sensitivity to it can be stated). -/
structure Request where
  xff : List String
  remote_addr : String
  device_token : Option String
deriving DecidableEq

/-- Embedding of `get_client_ip`: the first `X-Forwarded-For` header value
when at least one is present, otherwise `request.remote_addr`. -/
def get_client_ip (req : Request) : String :=
  match req.xff with
  | v :: _ => v
  | [] => req.remote_addr

/-! ## Application state -/

/-- One row of the `sighting_clicks` or `resolved_clicks` table. -/
structure Click where
  report_id : Nat
  client_ip : String
deriving DecidableEq

/-- One row of the Supabase `reports` table. -/
structure ReportRow where
  id : Nat
  issue_type : String
  custom_issue : Option String
  description : String
  location_name : String
  latitude : Option ℚ
  longitude : Option ℚ
  image_filename : Option String
  sightings_count : Nat
  resolved_count : Nat
  created_at : Nat
deriving DecidableEq

/-- One record of the JSON-file store `data/reports.json`, as read by
`load_reports` (only the fields the handlers touch are modelled). -/
structure FileReport where
  id : String
  status : String
  image_filename : Option String
  timestamp : Nat
  updated_at : Nat
deriving DecidableEq

/-- The whole mutable state: Supabase tables, the storage bucket (a list of
object paths) and the JSON-file store. `next_id` models the id sequence of
the `reports` table (fresh ids are never reused). -/
structure State where
  reports : List ReportRow
  sclicks : List Click
  rclicks : List Click
  blobs : List String
  fileReports : List FileReport
  next_id : Nat
deriving DecidableEq

/-! ## Report creation (`reports_handler`, POST branch; `create_report` is a
verbatim duplicate of the same body in the source) -/

/-- Form and file data of a create request; absent form fields are the empty
string, matching `request.form.get(key, '')`. -/
structure CreateReq where
  image : Option String
  issueType : String
  customIssue : String
  description : String
  location : String
  latitude : String
  longitude : String
deriving DecidableEq

inductive CreateResp where
  | created (report_id : Nat)
  | uploadError
  | submitError
deriving DecidableEq

/-- Extension extraction for the stored filename:
`secure_filename(file.filename).rsplit('.', 1)[1].lower()`; `secure_filename`
is modelled as the identity (it only sanitises hostile names, which does not
affect any property below). -/
def extOf (f : String) : String := lowerStr ((rsplitDot f).getD 1 "")

/-- The row handed to the `reports` table insert; `sightings_count`,
`resolved_count` and `created_at` are the database defaults. -/
def newRow (s : State) (req : CreateReq) (imgf : Option String)
    (la lo : Option ℚ) (now : Nat) : ReportRow :=
  { id := s.next_id
    issue_type := req.issueType
    custom_issue := if req.issueType = "custom" then some req.customIssue else none
    description := req.description
    location_name := req.location
    latitude := la
    longitude := lo
    image_filename := imgf
    sightings_count := 0
    resolved_count := 0
    created_at := now }

/-- The form-data-and-insert part of the POST handler. A latitude or
longitude that fails `float()` raises, which the blanket except turns into a
500 response; no report row is inserted in that case. -/
def insertReport (s : State) (req : CreateReq) (imgf : Option String)
    (now : Nat) : State × CreateResp :=
  match toFloatField req.latitude, toFloatField req.longitude with
  | some la, some lo =>
    ({ s with
        reports := s.reports ++ [newRow s req imgf la lo now]
        next_id := s.next_id + 1 },
     .created s.next_id)
  | _, _ => (s, .submitError)

/-- Embedding of the POST branch of `reports_handler`: optional image upload
first (a failing upload returns a 500 and aborts before any insert), then the
form fields are read and the row inserted. `uploadFails` is the oracle for a
storage exception; `image_uuid` stands for `uuid.uuid4()`. -/
def create_report (s : State) (req : CreateReq) (uploadFails : Bool)
    (image_uuid : String) (now : Nat) : State × CreateResp :=
  match req.image with
  | some fname =>
    if fname ≠ "" ∧ allowed_file fname = true then
      if uploadFails then (s, .uploadError)
      else
        let image_filename := image_uuid ++ "." ++ extOf fname
        let s1 := { s with blobs := s.blobs ++ ["images/" ++ image_filename] }
        insertReport s1 req (some image_filename) now
    else insertReport s req none now
  | none => insertReport s req none now

/-! ## Vote handlers (`add_sighting`, `add_resolved`) -/

inductive VoteResp where
  | alreadyVoted
  | sightingRecorded
  | resolvedRecorded (report_deleted : Bool)
  | err
deriving DecidableEq

/-- Embedding of `add_sighting`: duplicate check against `sighting_clicks`
(409 when present), `.single()` read of the row (error unless exactly one row
matches), count update, click insert. The caller identity `ip` is the value
of `get_client_ip`. -/
def add_sighting (s : State) (rid : Nat) (ip : String) : State × VoteResp :=
  if s.sclicks.any (fun c => c.report_id == rid && c.client_ip == ip) then
    (s, .alreadyVoted)
  else
    match s.reports.filter (fun r => r.id == rid) with
    | [r] =>
      let reports1 := s.reports.map
        (fun q => if q.id == rid then { q with sightings_count := r.sightings_count + 1 } else q)
      ({ s with reports := reports1, sclicks := s.sclicks ++ [{ report_id := rid, client_ip := ip }] },
       .sightingRecorded)
    | _ => (s, .err)

/-- Embedding of `add_resolved`: duplicate check against `resolved_clicks`,
`.single()` read, count update, click insert, re-read of the count, and
deletion of the report row when the re-read count is at least 5. The image
blob and the click tables are not touched by the deletion. -/
def add_resolved (s : State) (rid : Nat) (ip : String) : State × VoteResp :=
  if s.rclicks.any (fun c => c.report_id == rid && c.client_ip == ip) then
    (s, .alreadyVoted)
  else
    match s.reports.filter (fun r => r.id == rid) with
    | [r] =>
      let reports1 := s.reports.map
        (fun q => if q.id == rid then { q with resolved_count := r.resolved_count + 1 } else q)
      let s1 : State := { s with reports := reports1, rclicks := s.rclicks ++ [{ report_id := rid, client_ip := ip }] }
      match s1.reports.filter (fun q => q.id == rid) with
      | [r2] =>
        if 5 ≤ r2.resolved_count then
          ({ s1 with reports := s1.reports.filter (fun q => !(q.id == rid)) },
           .resolvedRecorded true)
        else (s1, .resolvedRecorded false)
      | _ => (s1, .err)
    | _ => (s, .err)

inductive VoteKind where
  | sighting
  | resolved
deriving DecidableEq

/-- The click table a vote kind deduplicates against. -/
def clicksOf (s : State) : VoteKind → List Click
  | .sighting => s.sclicks
  | .resolved => s.rclicks

/-- Dispatch of a vote request to the handler of its kind. -/
def castVote (s : State) (k : VoteKind) (rid : Nat) (ip : String) : State × VoteResp :=
  match k with
  | .sighting => add_sighting s rid ip
  | .resolved => add_resolved s rid ip

/-! ## File-store handlers (`get_report`, `update_report_status`, `delete_report`) -/

/-- Embedding of the lookup in `get_report`: `next((r for r in reports if
r['id'] == report_id), None)`; `none` produces the 404 response. -/
def get_report (s : State) (report_id : String) : Option FileReport :=
  s.fileReports.find? (fun r => r.id == report_id)

inductive StatusResp where
  | invalidStatus
  | notFound
  | updated
deriving DecidableEq

/-- Helper for the in-place mutation `report['status'] = new_status` of the
first matching record. -/
def updateFirstStatus : List FileReport → String → String → Nat → List FileReport
  | [], _, _, _ => []
  | r :: rest, rid, st, now =>
    if r.id == rid then { r with status := st, updated_at := now } :: rest
    else r :: updateFirstStatus rest rid st now

/-- Embedding of `update_report_status`: 400 unless the supplied status is
one of the three enumerated values (a missing status is `none` and also
rejected), 404 when no record matches, otherwise the first matching record's
status and `updated_at` are rewritten. -/
def update_report_status (s : State) (report_id : String)
    (new_status : Option String) (now : Nat) : State × StatusResp :=
  if new_status ≠ some "pending" ∧ new_status ≠ some "in_progress" ∧
      new_status ≠ some "resolved" then
    (s, .invalidStatus)
  else
    match s.fileReports.find? (fun r => r.id == report_id) with
    | none => (s, .notFound)
    | some _ =>
      let fr := updateFirstStatus s.fileReports report_id (new_status.getD "") now
      ({ s with fileReports := fr }, .updated)

inductive DeleteResp where
  | notFound
  | deleted
deriving DecidableEq

/-- Embedding of `delete_report`: 404 when no record matches; otherwise the
image blob (when referenced) is removed from storage inside a try/except
whose failure (`removeFails`) is logged and swallowed, and the record is
removed from the file store unconditionally. -/
def delete_report (s : State) (report_id : String) (removeFails : Bool) :
    State × DeleteResp :=
  match s.fileReports.find? (fun r => r.id == report_id) with
  | none => (s, .notFound)
  | some report =>
    let s1 :=
      match report.image_filename with
      | some f => if removeFails then s else { s with blobs := s.blobs.erase ("images/" ++ f) }
      | none => s
    ({ s1 with fileReports := s1.fileReports.filter (fun r => !(r.id == report_id)) },
     .deleted)

/-! ## Distance filter (`haversine` and the GET branch of `reports_handler`)

The Python source computes with double-precision floats; the embedding uses
the real numbers, which is the mathematical content of the formula. -/

/-- Degrees to radians, as in `math.radians`. -/
noncomputable def radians (x : ℝ) : ℝ := x * Real.pi / 180

/-- The two-argument arctangent `math.atan2 y x`, defined piecewise from
`Real.arctan` with the usual quadrant corrections. -/
noncomputable def atan2 (y x : ℝ) : ℝ :=
  if 0 < x then Real.arctan (y / x)
  else if x < 0 ∧ 0 ≤ y then Real.arctan (y / x) + Real.pi
  else if x < 0 then Real.arctan (y / x) - Real.pi
  else if 0 < y then Real.pi / 2
  else if y < 0 then -(Real.pi / 2)
  else 0

/-- Embedding of `haversine`: great-circle distance in kilometres on a
sphere of radius 6371 km. -/
noncomputable def haversine (lat1 lon1 lat2 lon2 : ℝ) : ℝ :=
  let la1 := radians lat1
  let lo1 := radians lon1
  let la2 := radians lat2
  let lo2 := radians lon2
  let dlon := lo2 - lo1
  let dlat := la2 - la1
  let a := Real.sin (dlat / 2) ^ 2 +
    Real.cos la1 * Real.cos la2 * Real.sin (dlon / 2) ^ 2
  let c := 2 * atan2 (Real.sqrt a) (Real.sqrt (1 - a))
  6371 * c

/-- Coordinate of a stored report as a real number; the `reports` table
stores numbers, read back as floats. A null coordinate has no numeric value
(the Python filter would raise on it); the default 0 here is only ever used
behind a guard that excludes that case. -/
noncomputable def coordR (o : Option ℚ) : ℝ := ((o.getD 0 : ℚ) : ℝ)

open Classical in
/-- Embedding of the GET branch of `reports_handler`: when both query
parameters are present, the stored reports are filtered by
`haversine(user, report) <= 1`; otherwise all rows are returned unfiltered,
in the order the store returns them (no ordering is applied). A stored row
with a null coordinate makes the comprehension raise, which the blanket
except turns into a 500 (`Except.error`). -/
noncomputable def reports_handler_get (s : State) (user_lat user_lng : Option ℝ) :
    Except Unit (List ReportRow) :=
  match user_lat, user_lng with
  | some ula, some ulo =>
    if s.reports.all (fun r => r.latitude.isSome && r.longitude.isSome) then
      .ok (s.reports.filter
        (fun r => decide (haversine ula ulo (coordR r.latitude) (coordR r.longitude) ≤ 1)))
    else .error ()
  | _, _ => .ok s.reports

/-- Membership of a report in a listing response. -/
def listedIn (res : Except Unit (List ReportRow)) (r : ReportRow) : Prop :=
  match res with
  | .ok l => r ∈ l
  | .error _ => False

/-- The ordering property claimed for listings: creation times are
non-increasing along the returned sequence. -/
def newestFirst (l : List ReportRow) : Prop :=
  l.Chain' (fun a b => b.created_at ≤ a.created_at)

/-! ## Tally invariant -/

/-- The identities recorded in a click table for a given report. -/
def ipsFor (clicks : List Click) (rid : Nat) : List String :=
  (clicks.filter (fun c => c.report_id == rid)).map Click.client_ip

/-- Number of distinct identities in a list. -/
def distinctCount (l : List String) : Nat := l.toFinset.card

/-- The claimed invariant: each stored report's sighting count equals the
number of distinct identities with a recorded sighting click on it, and
likewise for the resolved count. -/
def TallyInv (s : State) : Prop :=
  ∀ r ∈ s.reports,
    r.sightings_count = distinctCount (ipsFor s.sclicks r.id) ∧
    r.resolved_count = distinctCount (ipsFor s.rclicks r.id)

/-- Auxiliary freshness invariant of the id sequence: every stored row and
every recorded click refers to an id below the next fresh id, so a newly
created report starts with no clicks. -/
def FreshInv (s : State) : Prop :=
  (∀ r ∈ s.reports, r.id < s.next_id) ∧
  (∀ c ∈ s.sclicks, c.report_id < s.next_id) ∧
  (∀ c ∈ s.rclicks, c.report_id < s.next_id)

/-- The state-mutating operations of the application, for invariant
preservation statements. -/
inductive Op where
  | create (req : CreateReq) (uploadFails : Bool) (image_uuid : String) (now : Nat)
  | vote (k : VoteKind) (rid : Nat) (ip : String)
  | setStatus (rid : String) (st : Option String) (now : Nat)
  | deleteRep (rid : String) (removeFails : Bool)

/-- The state reached by running one operation. -/
def applyOp (s : State) : Op → State
  | .create req uf uuid now => (create_report s req uf uuid now).1
  | .vote k rid ip => (castVote s k rid ip).1
  | .setStatus rid st now => (update_report_status s rid st now).1
  | .deleteRep rid rf => (delete_report s rid rf).1

/-! ## Helper lemmas -/

lemma takeWhile_append_cons (p : Char → Bool) (l1 : List Char) (x : Char) (l2 : List Char)
    (h1 : ∀ c ∈ l1, p c = true) (h2 : p x = false) :
    (l1 ++ x :: l2).takeWhile p = l1 := by
  induction l1 with
  | nil => simp [List.takeWhile_cons, h2]
  | cons a as ih =>
    have ha : p a = true := h1 a (by simp)
    simp [List.takeWhile_cons, ha, ih (fun c hc => h1 c (by simp [hc]))]

lemma dropWhile_append_cons (p : Char → Bool) (l1 : List Char) (x : Char) (l2 : List Char)
    (h1 : ∀ c ∈ l1, p c = true) (h2 : p x = false) :
    (l1 ++ x :: l2).dropWhile p = x :: l2 := by
  induction l1 with
  | nil => simp [List.dropWhile_cons, h2]
  | cons a as ih =>
    have ha : p a = true := h1 a (by simp)
    simp [List.dropWhile_cons, ha, ih (fun c hc => h1 c (by simp [hc]))]

lemma exists_split_first (x : Char) (l : List Char) (h : x ∈ l) :
    ∃ l1 l2, l = l1 ++ x :: l2 ∧ x ∉ l1 := by
  induction l with
  | nil => cases h
  | cons a as ih =>
    by_cases hax : a = x
    · exact ⟨[], as, by simp [hax], by simp⟩
    · have hxs : x ∈ as := by
        rcases List.mem_cons.mp h with h1 | h1
        · exact absurd h1.symm hax
        · exact h1
      rcases ih hxs with ⟨l1, l2, he, hn⟩
      refine ⟨a :: l1, l2, by simp [he], ?_⟩
      simp only [List.mem_cons, not_or]
      exact ⟨fun hh => hax hh.symm, hn⟩

/-- On a string whose character list splits as `a ++ dot ++ b` with no dot in
`b`, `rsplitDot` computes exactly the pieces around the last dot. -/
lemma rsplitDot_eq (s : String) (a b : List Char) (hs : s.toList = a ++ '.' :: b)
    (hb : '.' ∉ b) : rsplitDot s = [String.mk a, String.mk b] := by
  have hs' : s.data = a ++ '.' :: b := hs
  have hmem : '.' ∈ s.toList := by rw [hs]; simp
  have hball : ∀ c ∈ b.reverse, (c != '.') = true := by
    intro c hc
    have : c ∈ b := List.mem_reverse.mp hc
    exact bne_iff_ne.mpr (fun he => hb (he ▸ this))
  have hrev : s.toList.reverse = b.reverse ++ '.' :: a.reverse := by
    rw [hs]; simp
  have hdot : (('.' : Char) != '.') = false := by simp
  unfold rsplitDot
  rw [if_pos hmem, hrev, takeWhile_append_cons _ _ _ _ hball hdot,
    dropWhile_append_cons _ _ _ _ hball hdot]
  simp

lemma lowerStr_mk (b : List Char) : lowerStr (String.mk b) = String.mk (b.map Char.toLower) := rfl

/-! ## C10 -/

/-- C10: the file-extension check `allowed_file` accepts a filename exactly
when it contains at least one dot and the lowercased part after the last dot
is one of png, jpg, jpeg, gif; a dotless name is rejected and matching is
case-insensitive, e.g. photo.PNG is accepted while photo is not. -/
theorem c10_allowed_file_spec (s : String) :
    (allowed_file s = true ↔
      ∃ a b : List Char, s.toList = a ++ '.' :: b ∧ '.' ∉ b ∧
        String.mk (b.map Char.toLower) ∈ ALLOWED_EXTENSIONS) ∧
    allowed_file "photo.PNG" = true ∧ allowed_file "photo" = false := by
  refine ⟨?_, by decide, by decide⟩
  unfold allowed_file
  rw [Bool.and_eq_true, decide_eq_true_iff, decide_eq_true_iff]
  constructor
  · rintro ⟨hmem, hext⟩
    have hrevmem : ('.' : Char) ∈ s.toList.reverse := List.mem_reverse.mpr hmem
    rcases exists_split_first '.' s.toList.reverse hrevmem with ⟨l1, l2, he, hn⟩
    have hs : s.toList = l2.reverse ++ '.' :: l1.reverse := by
      have := congrArg List.reverse he
      simpa using this
    have hb : '.' ∉ l1.reverse := fun hh => hn (List.mem_reverse.mp hh)
    have hr := rsplitDot_eq s l2.reverse l1.reverse hs hb
    refine ⟨l2.reverse, l1.reverse, hs, hb, ?_⟩
    rw [hr] at hext
    simpa [lowerStr_mk] using hext
  · rintro ⟨a, b, hs, hb, hmem⟩
    have hr := rsplitDot_eq s a b hs hb
    refine ⟨by rw [hs]; simp, ?_⟩
    rw [hr]
    simpa [lowerStr_mk] using hmem

/-! ## C7 -/

/-- Counterexample input for C7: a request carrying both a device token and
a forwarded-for header. -/
def c7req : Request :=
  { xff := ["1.2.3.4"], remote_addr := "9.9.9.9", device_token := some "deviceA" }

/-- C7 counterexample: with a device token present and a forwarded-for
header, the identity resolver returns the forwarded-for value, not the
device token the claim says it prefers. -/
theorem c7_counterexample :
    get_client_ip c7req = "1.2.3.4" ∧ c7req.device_token = some "deviceA" ∧
      get_client_ip c7req ≠ "deviceA" := by decide

/-- C7 amended: the identity resolver never consults a device token; it
returns the first X-Forwarded-For header value verbatim when at least one is
present, otherwise the direct connection address. -/
theorem c7_amended_identity (req : Request) (d : Option String) (v : String)
    (rest : List String) :
    get_client_ip { req with device_token := d } = get_client_ip req ∧
    get_client_ip { req with xff := [] } = req.remote_addr ∧
    get_client_ip { req with xff := v :: rest } = v := by
  cases req with
  | mk xff ra dt => cases xff <;> simp [get_client_ip]

/-! ## C2 -/

/-- C2: a second vote of the same kind by the same identity on the same
report is rejected with the 409 already-voted response and leaves the whole
state, in particular that kind's count and recorded identity set, unchanged. -/
theorem c2_duplicate_vote_rejected (s : State) (k : VoteKind) (rid : Nat) (ip : String)
    (h : ({ report_id := rid, client_ip := ip } : Click) ∈ clicksOf s k) :
    castVote s k rid ip = (s, .alreadyVoted) := by
  cases k with
  | sighting =>
    have hany : s.sclicks.any (fun c => c.report_id == rid && c.client_ip == ip) = true :=
      List.any_eq_true.mpr ⟨_, h, by simp⟩
    simp [castVote, add_sighting, hany]
  | resolved =>
    have hany : s.rclicks.any (fun c => c.report_id == rid && c.client_ip == ip) = true :=
      List.any_eq_true.mpr ⟨_, h, by simp⟩
    simp [castVote, add_resolved, hany]

/-- A report row used by the concrete test states below. -/
def row1 : ReportRow :=
  { id := 1
    issue_type := "flooding"
    custom_issue := none
    description := ""
    location_name := "Manila"
    latitude := some 14
    longitude := some 120
    image_filename := none
    sightings_count := 1
    resolved_count := 0
    created_at := 0 }

/-- A concrete state in which identity ip1 has already cast a sighting vote
on report 1. -/
def c2state : State :=
  { reports := [row1]
    sclicks := [{ report_id := 1, client_ip := "ip1" }]
    rclicks := []
    blobs := []
    fileReports := []
    next_id := 2 }

/-- Witness for C2 at a concrete state. -/
theorem c2_duplicate_vote_rejected_witness :
    ({ report_id := 1, client_ip := "ip1" } : Click) ∈ clicksOf c2state .sighting ∧
      castVote c2state .sighting 1 "ip1" = (c2state, .alreadyVoted) :=
  ⟨List.mem_singleton.mpr rfl,
    c2_duplicate_vote_rejected c2state .sighting 1 "ip1" (List.mem_singleton.mpr rfl)⟩

/-! ## C8 -/

/-- C8: explicit delete returns not-found when the report is absent; when it
is present the record is removed and success reported regardless of whether
the image-blob removal fails (a failure leaves the blobs untouched and is
swallowed); when the removal succeeds the referenced blob is erased. -/
theorem c8_delete_report_spec (s : State) (rid : String) (rf : Bool) :
    (s.fileReports.find? (fun q => q.id == rid) = none →
      delete_report s rid rf = (s, .notFound)) ∧
    (∀ r, s.fileReports.find? (fun q => q.id == rid) = some r →
      (delete_report s rid rf).2 = .deleted ∧
      (delete_report s rid rf).1.fileReports =
        s.fileReports.filter (fun q => !(q.id == rid)) ∧
      (rf = true → (delete_report s rid rf).1.blobs = s.blobs) ∧
      (r.image_filename = none → (delete_report s rid rf).1.blobs = s.blobs) ∧
      (∀ f, rf = false → r.image_filename = some f →
        (delete_report s rid rf).1.blobs = s.blobs.erase ("images/" ++ f))) := by
  constructor
  · intro h
    simp [delete_report, h]
  · intro r h
    cases himg : r.image_filename with
    | none => cases rf <;> simp [delete_report, h, himg]
    | some f => cases rf <;> simp [delete_report, h, himg]

/-- A file-store record with an associated image, for the C8 witness. -/
def c8file : FileReport :=
  { id := "r1"
    status := "pending"
    image_filename := some "img1.png"
    timestamp := 5
    updated_at := 5 }

/-- A concrete state for the C8 witness. -/
def c8state : State :=
  { reports := []
    sclicks := []
    rclicks := []
    blobs := ["images/img1.png", "images/other.png"]
    fileReports := [c8file]
    next_id := 1 }

/-- Witness for C8: deleting the present report r1 succeeds, removes the
record and erases its blob. -/
theorem c8_delete_report_spec_witness :
    (delete_report c8state "r1" false).2 = .deleted ∧
    (delete_report c8state "r1" false).1.fileReports = [] ∧
    (delete_report c8state "r1" false).1.blobs = ["images/other.png"] := by
  obtain ⟨-, h⟩ := c8_delete_report_spec c8state "r1" false
  obtain ⟨h1, h2, -, -, h5⟩ := h c8file rfl
  refine ⟨h1, ?_, ?_⟩
  · rw [h2]; rfl
  · rw [h5 "img1.png" rfl rfl]; rfl

/-! ## C9 -/

/-- C9: when a create request carries a valid image and the storage upload
fails, the handler aborts with an upload error and the state, in particular
the set of report rows, is unchanged; and any row added by a create carrying
an image reference has its blob present in storage (the upload happened
first and succeeded). -/
theorem c9_upload_failure_aborts (s : State) (req : CreateReq) (f : String)
    (image_uuid : String) (now : Nat)
    (himg : req.image = some f) (hne : f ≠ "") (hok : allowed_file f = true) :
    create_report s req true image_uuid now = (s, .uploadError) ∧
    (∀ uploadFails : Bool, ∀ r ∈ (create_report s req uploadFails image_uuid now).1.reports,
      r ∉ s.reports →
      ∀ g, r.image_filename = some g →
        ("images/" ++ g) ∈ (create_report s req uploadFails image_uuid now).1.blobs) := by
  have hcond : f ≠ "" ∧ allowed_file f = true := ⟨hne, hok⟩
  constructor
  · simp [create_report, himg, hcond]
  · intro uf r hr hnew g hg
    cases uf with
    | true =>
      simp [create_report, himg, hcond] at hr
      exact absurd hr hnew
    | false =>
      simp only [create_report, himg, if_pos hcond, Bool.false_eq_true, if_false] at hr ⊢
      rcases hla : toFloatField req.latitude with _ | la <;>
        rcases hlo : toFloatField req.longitude with _ | lo <;>
          simp only [insertReport, hla, hlo] at hr ⊢
      · exact absurd hr hnew
      · exact absurd hr hnew
      · exact absurd hr hnew
      · rcases List.mem_append.mp hr with hold | hnew2
        · exact absurd hold hnew
        · have : r = newRow _ req (some (image_uuid ++ "." ++ extOf f)) la lo now :=
            List.mem_singleton.mp hnew2
          rw [this] at hg
          simp only [newRow] at hg
          obtain rfl : image_uuid ++ "." ++ extOf f = g := Option.some.inj hg
          exact List.mem_append.mpr (Or.inr (List.mem_singleton.mpr rfl))

/-- A create request with a valid image attached, for the C9 witness. -/
def c9req : CreateReq :=
  { image := some "a.png"
    issueType := "pothole"
    customIssue := ""
    description := "d"
    location := "Quezon"
    latitude := "14.6"
    longitude := "121.0" }

/-- An empty starting state for create witnesses. -/
def emptyState : State :=
  { reports := []
    sclicks := []
    rclicks := []
    blobs := []
    fileReports := []
    next_id := 1 }

/-- Witness for C9: with the upload failing, the concrete create request is
rejected with an upload error and the state stays empty. -/
theorem c9_upload_failure_aborts_witness :
    c9req.image = some "a.png" ∧ "a.png" ≠ "" ∧ allowed_file "a.png" = true ∧
      create_report emptyState c9req true "u1" 3 = (emptyState, .uploadError) :=
  ⟨rfl, by decide, by decide,
    (c9_upload_failure_aborts emptyState c9req "a.png" "u1" 3 rfl (by decide) (by decide)).1⟩

/-! ## C4 -/

/-- A create request with the latitude field missing (the form default is
the empty string). -/
def c4req : CreateReq :=
  { image := none
    issueType := "flooding"
    customIssue := ""
    description := ""
    location := "Manila"
    latitude := ""
    longitude := "120.98" }

/-- C4 counterexample: a create request without a latitude does not fail
with a validation error; it succeeds with a 201 and inserts a report row
(with a null latitude). -/
theorem c4_counterexample :
    (create_report emptyState c4req false "u1" 7).2 = .created 1 ∧
    (create_report emptyState c4req false "u1" 7).1.reports ≠ [] ∧
    (∀ r ∈ (create_report emptyState c4req false "u1" 7).1.reports,
      r.latitude = none) := by decide

/-- C4 amended: creation performs no field validation. Missing text fields
are stored as empty strings and missing coordinates as null, and the insert
succeeds, returning the fresh id; only a nonempty latitude or longitude that
fails float parsing produces a failure, which is the generic 500 submit
error (not a 400 validation error), and then no report row is inserted. -/
theorem c4_amended_no_validation (s : State) (req : CreateReq) (image_uuid : String)
    (now : Nat) (himg : req.image = none) :
    (toFloatField req.latitude = none ∨ toFloatField req.longitude = none →
      create_report s req false image_uuid now = (s, .submitError)) ∧
    (∀ la lo, toFloatField req.latitude = some la → toFloatField req.longitude = some lo →
      create_report s req false image_uuid now =
        ({ s with
            reports := s.reports ++ [newRow s req none la lo now]
            next_id := s.next_id + 1 },
          .created s.next_id)) := by
  constructor
  · rintro (h | h)
    · rcases hlo : toFloatField req.longitude with _ | lo <;>
        simp [create_report, himg, insertReport, h, hlo]
    · rcases hla : toFloatField req.latitude with _ | la <;>
        simp [create_report, himg, insertReport, h, hla]
  · intro la lo hla hlo
    simp [create_report, himg, insertReport, hla, hlo]

/-- The request of `c4req` with a well-formed latitude supplied. -/
def c4reqGood : CreateReq := { c4req with latitude := "14.6" }

/-- Witness for C4 amended: a concrete request with parseable coordinates
succeeds with the fresh id 1. -/
theorem c4_amended_no_validation_witness :
    c4reqGood.image = none ∧
    (create_report emptyState c4reqGood false "u1" 7).2 = .created 1 := by
  refine ⟨rfl, ?_⟩
  obtain ⟨la, hla⟩ : ∃ x, toFloatField c4reqGood.latitude = some x := ⟨_, rfl⟩
  obtain ⟨lo, hlo⟩ : ∃ x, toFloatField c4reqGood.longitude = some x := ⟨_, rfl⟩
  have h := (c4_amended_no_validation emptyState c4reqGood "u1" 7 rfl).2 la lo hla hlo
  rw [h]
  rfl

/-! ## Lemmas about the vote handlers -/

lemma click_any_false (cl : List Click) (rid : Nat) (ip : String)
    (h : ({ report_id := rid, client_ip := ip } : Click) ∉ cl) :
    cl.any (fun c => c.report_id == rid && c.client_ip == ip) = false := by
  rw [List.any_eq_false]
  rintro ⟨cr, ci⟩ hc hb
  simp only [Bool.and_eq_true, beq_iff_eq] at hb
  obtain ⟨h1, h2⟩ := hb
  subst h1
  subst h2
  exact h hc

lemma filter_singleton_facts (l : List ReportRow) (rid : Nat) (r : ReportRow)
    (h : l.filter (fun q => q.id == rid) = [r]) :
    r ∈ l ∧ r.id = rid ∧ ∀ q ∈ l, q.id = rid → q = r := by
  have hr : r ∈ l.filter (fun q => q.id == rid) := h ▸ List.mem_singleton.mpr rfl
  have hm := List.mem_filter.mp hr
  refine ⟨hm.1, by simpa using hm.2, ?_⟩
  intro q hq hqid
  have hq2 : q ∈ l.filter (fun q => q.id == rid) :=
    List.mem_filter.mpr ⟨hq, by simp [hqid]⟩
  rw [h] at hq2
  exact List.mem_singleton.mp hq2

lemma filter_map_update_nil (as : List ReportRow) (rid : Nat) (g : ReportRow → ReportRow)
    (h : as.filter (fun q => q.id == rid) = []) :
    (as.map (fun q => if q.id == rid then g q else q)).filter (fun q => q.id == rid) = [] := by
  induction as with
  | nil => simp
  | cons a as ih =>
    by_cases ha : a.id = rid
    · rw [List.filter_cons_of_pos (p := fun (q : ReportRow) => q.id == rid) (by simpa using ha)] at h
      simp at h
    · have hb : ¬ (a.id == rid) = true := by simp [ha]
      rw [List.filter_cons_of_neg (p := fun (q : ReportRow) => q.id == rid) hb] at h
      rw [List.map_cons, if_neg hb, List.filter_cons_of_neg (p := fun (q : ReportRow) => q.id == rid) hb]
      exact ih h

lemma filter_map_update (l : List ReportRow) (rid : Nat) (r : ReportRow)
    (g : ReportRow → ReportRow) (hg : (g r).id = r.id)
    (h : l.filter (fun q => q.id == rid) = [r]) :
    (l.map (fun q => if q.id == rid then g q else q)).filter (fun q => q.id == rid) = [g r] := by
  obtain ⟨-, hrid, -⟩ := filter_singleton_facts l rid r h
  induction l with
  | nil => simp at h
  | cons a as ih =>
    by_cases ha : a.id = rid
    · have hb : (a.id == rid) = true := by simpa using ha
      rw [List.filter_cons_of_pos (p := fun (q : ReportRow) => q.id == rid) hb] at h
      obtain ⟨rfl, htail⟩ : a = r ∧ as.filter (fun q => q.id == rid) = [] :=
        ⟨by injection h, by injection h⟩
      have hgid : ((g a).id == rid) = true := by simp [hg, hrid]
      rw [List.map_cons, if_pos hb, List.filter_cons_of_pos (p := fun (q : ReportRow) => q.id == rid) hgid,
        filter_map_update_nil as rid g htail]
    · have hb : ¬ (a.id == rid) = true := by simp [ha]
      rw [List.filter_cons_of_neg (p := fun (q : ReportRow) => q.id == rid) hb] at h
      rw [List.map_cons, if_neg hb, List.filter_cons_of_neg (p := fun (q : ReportRow) => q.id == rid) hb]
      exact ih h

/-- The state after a successful sighting vote: the matched row's count is
bumped and the click is appended. -/
def sightingSuccState (s : State) (rid : Nat) (ip : String) (r : ReportRow) : State :=
  { s with
      reports := s.reports.map
        (fun q => if q.id == rid then { q with sightings_count := r.sightings_count + 1 } else q)
      sclicks := s.sclicks ++ [{ report_id := rid, client_ip := ip }] }

/-- The state after the count-update and click-insert steps of a resolved
vote, before the threshold check. -/
def resolvedSuccState (s : State) (rid : Nat) (ip : String) (r : ReportRow) : State :=
  { s with
      reports := s.reports.map
        (fun q => if q.id == rid then { q with resolved_count := r.resolved_count + 1 } else q)
      rclicks := s.rclicks ++ [{ report_id := rid, client_ip := ip }] }

lemma add_sighting_success (s : State) (rid : Nat) (ip : String) (r : ReportRow)
    (hdup : s.sclicks.any (fun c => c.report_id == rid && c.client_ip == ip) = false)
    (hfil : s.reports.filter (fun q => q.id == rid) = [r]) :
    add_sighting s rid ip = (sightingSuccState s rid ip r, .sightingRecorded) := by
  unfold add_sighting
  rw [hdup]
  simp only [Bool.false_eq_true, if_false, hfil]
  rfl

lemma add_resolved_success (s : State) (rid : Nat) (ip : String) (r : ReportRow)
    (hdup : s.rclicks.any (fun c => c.report_id == rid && c.client_ip == ip) = false)
    (hfil : s.reports.filter (fun q => q.id == rid) = [r]) :
    add_resolved s rid ip =
      (if 5 ≤ r.resolved_count + 1 then
        ({ resolvedSuccState s rid ip r with
            reports := (resolvedSuccState s rid ip r).reports.filter (fun q => !(q.id == rid)) },
          .resolvedRecorded true)
      else (resolvedSuccState s rid ip r, .resolvedRecorded false)) := by
  have hupd := filter_map_update s.reports rid r
    (fun q => { q with resolved_count := r.resolved_count + 1 }) rfl hfil
  unfold add_resolved
  rw [hdup]
  simp only [Bool.false_eq_true, if_false, hfil]
  simp only [resolvedSuccState, hupd]

/-! ## C1 -/

/-- The report row of the C1 counterexample: it has an image and already
four resolved votes. -/
def c1row : ReportRow :=
  { id := 1
    issue_type := "flooding"
    custom_issue := none
    description := ""
    location_name := "Manila"
    latitude := some 14
    longitude := some 120
    image_filename := some "img1.png"
    sightings_count := 0
    resolved_count := 4
    created_at := 3 }

/-- The C1 counterexample state: report 1 with its blob in storage and four
distinct resolved voters recorded. -/
def c1state : State :=
  { reports := [c1row]
    sclicks := []
    rclicks := [{ report_id := 1, client_ip := "a" }, { report_id := 1, client_ip := "b" },
      { report_id := 1, client_ip := "c" }, { report_id := 1, client_ip := "d" }]
    blobs := ["images/img1.png"]
    fileReports := []
    next_id := 2 }

/-- C1 counterexample: the fifth resolved vote reports the deletion and
removes the report row, but the associated image blob is still in storage,
so the report and its blob are not deleted as a single logical unit. -/
theorem c1_counterexample :
    (add_resolved c1state 1 "e").2 = .resolvedRecorded true ∧
    (add_resolved c1state 1 "e").1.reports.filter (fun q => q.id == 1) = [] ∧
    "images/img1.png" ∈ (add_resolved c1state 1 "e").1.blobs := by decide

/-- C1 amended: a successful resolved vote on the uniquely matched report
row never touches the storage bucket or the file store read by the get
endpoint; when the incremented count reaches 5 the response reports the
deletion and the row is gone from the reports table, and below 5 the row
remains with the incremented count. -/
theorem c1_amended_threshold (s : State) (rid : Nat) (ip : String) (r : ReportRow)
    (hdup : ({ report_id := rid, client_ip := ip } : Click) ∉ s.rclicks)
    (hfil : s.reports.filter (fun q => q.id == rid) = [r]) :
    (add_resolved s rid ip).1.blobs = s.blobs ∧
    (∀ x, get_report (add_resolved s rid ip).1 x = get_report s x) ∧
    (5 ≤ r.resolved_count + 1 →
      (add_resolved s rid ip).2 = .resolvedRecorded true ∧
      (add_resolved s rid ip).1.reports.filter (fun q => q.id == rid) = []) ∧
    (r.resolved_count + 1 < 5 →
      (add_resolved s rid ip).2 = .resolvedRecorded false ∧
      (add_resolved s rid ip).1.reports.filter (fun q => q.id == rid) =
        [{ r with resolved_count := r.resolved_count + 1 }]) := by
  have hany := click_any_false s.rclicks rid ip hdup
  have hsucc := add_resolved_success s rid ip r hany hfil
  have hupd := filter_map_update s.reports rid r
    (fun q => { q with resolved_count := r.resolved_count + 1 }) rfl hfil
  by_cases hth : 5 ≤ r.resolved_count + 1
  · rw [hsucc, if_pos hth]
    refine ⟨rfl, fun x => rfl, fun _ => ⟨rfl, ?_⟩, fun hlt => absurd hth (by omega)⟩
    rw [List.filter_filter]
    have : ∀ q : ReportRow, ((q.id == rid) && !(q.id == rid)) = false :=
      fun q => Bool.and_not_self _
    simp only [resolvedSuccState]
    simp [this]
  · rw [hsucc, if_neg hth]
    refine ⟨rfl, fun x => rfl, fun hge => absurd hge hth, fun _ => ⟨rfl, ?_⟩⟩
    simpa only [resolvedSuccState] using hupd

/-- Witness for C1 amended: a first resolved vote on a report with zero
resolved votes leaves the blobs unchanged and reports no deletion. -/
theorem c1_amended_threshold_witness :
    (add_resolved c2state 1 "ipZ").1.blobs = c2state.blobs ∧
    (add_resolved c2state 1 "ipZ").2 = .resolvedRecorded false := by
  have h := c1_amended_threshold c2state 1 "ipZ" row1 (by simp [c2state]) rfl
  exact ⟨h.1, (h.2.2.2 (by decide)).1⟩

/-! ## Lemmas for the tally invariant -/

lemma ipsFor_append_click (cl : List Click) (rid : Nat) (ip : String) (x : Nat) :
    ipsFor (cl ++ [{ report_id := rid, client_ip := ip }]) x =
      if rid = x then ipsFor cl x ++ [ip] else ipsFor cl x := by
  unfold ipsFor
  rw [List.filter_append]
  by_cases h : rid = x
  · subst h
    simp
  · have hb : (({ report_id := rid, client_ip := ip } : Click).report_id == x) = false := by
      simpa using h
    simp [hb, h]

lemma distinctCount_append_fresh (l : List String) (ip : String) (h : ip ∉ l) :
    distinctCount (l ++ [ip]) = distinctCount l + 1 := by
  unfold distinctCount
  rw [List.toFinset_append]
  have he : l.toFinset ∪ [ip].toFinset = insert ip l.toFinset := by
    rw [Finset.union_comm]
    simp [Finset.insert_eq]
  rw [he, Finset.card_insert_of_not_mem (by simpa using h)]

lemma not_in_ipsFor_of_any_false (cl : List Click) (rid : Nat) (ip : String)
    (h : cl.any (fun c => c.report_id == rid && c.client_ip == ip) = false) :
    ip ∉ ipsFor cl rid := by
  intro hmem
  rcases List.mem_map.mp hmem with ⟨c, hcf, hcip⟩
  rcases List.mem_filter.mp hcf with ⟨hcl, hcr⟩
  have := List.any_eq_false.mp h c hcl
  exact this (by simp [hcr, hcip])

lemma tallyInv_sighting_succ (s : State) (rid : Nat) (ip : String) (r : ReportRow)
    (hT : TallyInv s)
    (hfil : s.reports.filter (fun q => q.id == rid) = [r])
    (hfresh : ip ∉ ipsFor s.sclicks rid) :
    TallyInv (sightingSuccState s rid ip r) := by
  obtain ⟨hrmem, hrid, huniq⟩ := filter_singleton_facts s.reports rid r hfil
  intro q' hq'
  simp only [sightingSuccState] at hq'
  rcases List.mem_map.mp hq' with ⟨q, hq, hfq⟩
  obtain ⟨hqs, hqr⟩ := hT q hq
  by_cases hid : q.id = rid
  · have hqeq : q = r := huniq q hq hid
    subst hqeq
    have hbeq : (q.id == rid) = true := by simpa using hid
    rw [if_pos hbeq] at hfq
    subst hfq
    constructor
    · show q.sightings_count + 1 =
        distinctCount (ipsFor (s.sclicks ++ [{ report_id := rid, client_ip := ip }]) q.id)
      rw [hid, ipsFor_append_click, if_pos rfl, distinctCount_append_fresh _ _ hfresh]
      rw [hid] at hqs
      rw [hqs]
    · show q.resolved_count = distinctCount (ipsFor s.rclicks q.id)
      exact hqr
  · have hbeq : ¬ (q.id == rid) = true := by simp [hid]
    rw [if_neg hbeq] at hfq
    subst hfq
    constructor
    · show q.sightings_count =
        distinctCount (ipsFor (s.sclicks ++ [{ report_id := rid, client_ip := ip }]) q.id)
      rw [ipsFor_append_click, if_neg (fun h => hid h.symm)]
      exact hqs
    · exact hqr

lemma tallyInv_resolved_succ (s : State) (rid : Nat) (ip : String) (r : ReportRow)
    (hT : TallyInv s)
    (hfil : s.reports.filter (fun q => q.id == rid) = [r])
    (hfresh : ip ∉ ipsFor s.rclicks rid) :
    TallyInv (resolvedSuccState s rid ip r) := by
  obtain ⟨hrmem, hrid, huniq⟩ := filter_singleton_facts s.reports rid r hfil
  intro q' hq'
  simp only [resolvedSuccState] at hq'
  rcases List.mem_map.mp hq' with ⟨q, hq, hfq⟩
  obtain ⟨hqs, hqr⟩ := hT q hq
  by_cases hid : q.id = rid
  · have hqeq : q = r := huniq q hq hid
    subst hqeq
    have hbeq : (q.id == rid) = true := by simpa using hid
    rw [if_pos hbeq] at hfq
    subst hfq
    constructor
    · show q.sightings_count = distinctCount (ipsFor s.sclicks q.id)
      exact hqs
    · show q.resolved_count + 1 =
        distinctCount (ipsFor (s.rclicks ++ [{ report_id := rid, client_ip := ip }]) q.id)
      rw [hid, ipsFor_append_click, if_pos rfl, distinctCount_append_fresh _ _ hfresh]
      rw [hid] at hqr
      rw [hqr]
  · have hbeq : ¬ (q.id == rid) = true := by simp [hid]
    rw [if_neg hbeq] at hfq
    subst hfq
    constructor
    · exact hqs
    · show q.resolved_count =
        distinctCount (ipsFor (s.rclicks ++ [{ report_id := rid, client_ip := ip }]) q.id)
      rw [ipsFor_append_click, if_neg (fun h => hid h.symm)]
      exact hqr

lemma tallyInv_filter_reports (s : State) (p : ReportRow → Bool) (hT : TallyInv s) :
    TallyInv { s with reports := s.reports.filter p } := by
  intro q hq
  exact hT q (List.mem_filter.mp hq).1

lemma id_of_update_sighting (q0 : ReportRow) (n rid : Nat) :
    ((if q0.id == rid then { q0 with sightings_count := n } else q0) : ReportRow).id = q0.id := by
  split <;> rfl

lemma id_of_update_resolved (q0 : ReportRow) (n rid : Nat) :
    ((if q0.id == rid then { q0 with resolved_count := n } else q0) : ReportRow).id = q0.id := by
  split <;> rfl

lemma freshInv_sighting_succ (s : State) (rid : Nat) (ip : String) (r : ReportRow)
    (hF : FreshInv s)
    (hfil : s.reports.filter (fun q => q.id == rid) = [r]) :
    FreshInv (sightingSuccState s rid ip r) := by
  obtain ⟨hrmem, hrid, -⟩ := filter_singleton_facts s.reports rid r hfil
  obtain ⟨h1, h2, h3⟩ := hF
  refine ⟨?_, ?_, h3⟩
  · intro q hq
    rcases List.mem_map.mp hq with ⟨q0, hq0, hfq⟩
    have hqid : q.id = q0.id := by rw [← hfq]; exact id_of_update_sighting q0 _ rid
    rw [hqid]
    exact h1 q0 hq0
  · intro c hc
    rcases List.mem_append.mp hc with h | h
    · exact h2 c h
    · have hce : c = { report_id := rid, client_ip := ip } := List.mem_singleton.mp h
      subst hce
      show rid < s.next_id
      rw [← hrid]
      exact h1 r hrmem

lemma freshInv_resolved_succ (s : State) (rid : Nat) (ip : String) (r : ReportRow)
    (hF : FreshInv s)
    (hfil : s.reports.filter (fun q => q.id == rid) = [r]) :
    FreshInv (resolvedSuccState s rid ip r) := by
  obtain ⟨hrmem, hrid, -⟩ := filter_singleton_facts s.reports rid r hfil
  obtain ⟨h1, h2, h3⟩ := hF
  refine ⟨?_, h2, ?_⟩
  · intro q hq
    rcases List.mem_map.mp hq with ⟨q0, hq0, hfq⟩
    have hqid : q.id = q0.id := by rw [← hfq]; exact id_of_update_resolved q0 _ rid
    rw [hqid]
    exact h1 q0 hq0
  · intro c hc
    rcases List.mem_append.mp hc with h | h
    · exact h3 c h
    · have hce : c = { report_id := rid, client_ip := ip } := List.mem_singleton.mp h
      subst hce
      show rid < s.next_id
      rw [← hrid]
      exact h1 r hrmem

lemma freshInv_filter_reports (s : State) (p : ReportRow → Bool) (hF : FreshInv s) :
    FreshInv { s with reports := s.reports.filter p } := by
  obtain ⟨h1, h2, h3⟩ := hF
  exact ⟨fun q hq => h1 q (List.mem_filter.mp hq).1, h2, h3⟩

lemma invs_insertReport (s : State) (req : CreateReq) (imgf : Option String) (now : Nat)
    (hT : TallyInv s) (hF : FreshInv s) :
    TallyInv (insertReport s req imgf now).1 ∧ FreshInv (insertReport s req imgf now).1 := by
  obtain ⟨h1, h2, h3⟩ := hF
  rcases hla : toFloatField req.latitude with _ | la <;>
    rcases hlo : toFloatField req.longitude with _ | lo <;>
      simp only [insertReport, hla, hlo]
  · exact ⟨hT, ⟨h1, h2, h3⟩⟩
  · exact ⟨hT, ⟨h1, h2, h3⟩⟩
  · exact ⟨hT, ⟨h1, h2, h3⟩⟩
  · constructor
    · intro q hq
      rcases List.mem_append.mp hq with h | h
      · exact hT q h
      · have hqe : q = newRow s req imgf la lo now := List.mem_singleton.mp h
        subst hqe
        have hsc : ipsFor s.sclicks s.next_id = [] := by
          unfold ipsFor
          rw [List.filter_eq_nil_iff.mpr]
          · rfl
          · intro c hc
            simp [Nat.ne_of_lt (h2 c hc)]
        have hrc : ipsFor s.rclicks s.next_id = [] := by
          unfold ipsFor
          rw [List.filter_eq_nil_iff.mpr]
          · rfl
          · intro c hc
            simp [Nat.ne_of_lt (h3 c hc)]
        constructor
        · show (0 : Nat) = distinctCount (ipsFor s.sclicks s.next_id)
          rw [hsc]
          rfl
        · show (0 : Nat) = distinctCount (ipsFor s.rclicks s.next_id)
          rw [hrc]
          rfl
    · refine ⟨?_, ?_, ?_⟩
      · intro q hq
        rcases List.mem_append.mp hq with h | h
        · exact Nat.lt_succ_of_lt (h1 q h)
        · have hqe : q = newRow s req imgf la lo now := List.mem_singleton.mp h
          subst hqe
          exact Nat.lt_succ_self _
      · exact fun c hc => Nat.lt_succ_of_lt (h2 c hc)
      · exact fun c hc => Nat.lt_succ_of_lt (h3 c hc)

lemma update_report_status_fields (s : State) (rid : String) (st : Option String) (now : Nat) :
    (update_report_status s rid st now).1.reports = s.reports ∧
    (update_report_status s rid st now).1.sclicks = s.sclicks ∧
    (update_report_status s rid st now).1.rclicks = s.rclicks ∧
    (update_report_status s rid st now).1.next_id = s.next_id := by
  unfold update_report_status
  split
  · exact ⟨rfl, rfl, rfl, rfl⟩
  · split <;> exact ⟨rfl, rfl, rfl, rfl⟩

lemma delete_report_fields (s : State) (rid : String) (rf : Bool) :
    (delete_report s rid rf).1.reports = s.reports ∧
    (delete_report s rid rf).1.sclicks = s.sclicks ∧
    (delete_report s rid rf).1.rclicks = s.rclicks ∧
    (delete_report s rid rf).1.next_id = s.next_id := by
  unfold delete_report
  split
  · exact ⟨rfl, rfl, rfl, rfl⟩
  · split
    · split <;> exact ⟨rfl, rfl, rfl, rfl⟩
    · exact ⟨rfl, rfl, rfl, rfl⟩

lemma tallyInv_of_fields (s t : State) (h1 : t.reports = s.reports)
    (h2 : t.sclicks = s.sclicks) (h3 : t.rclicks = s.rclicks) (hT : TallyInv s) :
    TallyInv t := by
  intro q hq
  rw [h1] at hq
  rw [h2, h3]
  exact hT q hq

lemma freshInv_of_fields (s t : State) (h1 : t.reports = s.reports)
    (h2 : t.sclicks = s.sclicks) (h3 : t.rclicks = s.rclicks) (h4 : t.next_id = s.next_id)
    (hF : FreshInv s) : FreshInv t := by
  obtain ⟨f1, f2, f3⟩ := hF
  refine ⟨?_, ?_, ?_⟩
  · intro q hq
    rw [h1] at hq
    rw [h4]
    exact f1 q hq
  · intro c hc
    rw [h2] at hc
    rw [h4]
    exact f2 c hc
  · intro c hc
    rw [h3] at hc
    rw [h4]
    exact f3 c hc

/-! ## C3 -/

/-- C3: in every state where each report's sighting and resolved counts
equal the number of distinct identities recorded in the corresponding click
table (together with the freshness of the id sequence), every operation of
the application — create, either kind of vote, status update and delete —
preserves that equality. -/
theorem c3_count_matches_identities (s : State) (op : Op)
    (hT : TallyInv s) (hF : FreshInv s) :
    TallyInv (applyOp s op) ∧ FreshInv (applyOp s op) := by
  cases op with
  | create req uf uuid now =>
    rcases himg : req.image with _ | fname <;>
      simp only [applyOp, create_report, himg]
    · exact invs_insertReport s req none now hT hF
    · by_cases hcond : fname ≠ "" ∧ allowed_file fname = true
      · rw [if_pos hcond]
        cases uf with
        | true => exact ⟨hT, hF⟩
        | false =>
          simp only [Bool.false_eq_true, if_false]
          exact invs_insertReport _ req _ now hT hF
      · rw [if_neg hcond]
        exact invs_insertReport s req none now hT hF
  | vote k rid ip =>
    cases k with
    | sighting =>
      by_cases hdup : s.sclicks.any (fun c => c.report_id == rid && c.client_ip == ip) = true
      · simp only [applyOp, castVote, add_sighting, hdup, if_true]
        exact ⟨hT, hF⟩
      · have hdup2 : s.sclicks.any (fun c => c.report_id == rid && c.client_ip == ip) = false :=
          Bool.not_eq_true _ ▸ hdup
        rcases hfil : s.reports.filter (fun q => q.id == rid) with _ | ⟨r, _ | ⟨r2, rest⟩⟩
        · simp only [applyOp, castVote, add_sighting, hdup2, Bool.false_eq_true, if_false, hfil]
          exact ⟨hT, hF⟩
        · have hs := add_sighting_success s rid ip r hdup2 hfil
          simp only [applyOp, castVote, hs]
          have hfresh : ip ∉ ipsFor s.sclicks rid := not_in_ipsFor_of_any_false _ _ _ hdup2
          exact ⟨tallyInv_sighting_succ s rid ip r hT hfil hfresh,
            freshInv_sighting_succ s rid ip r hF hfil⟩
        · simp only [applyOp, castVote, add_sighting, hdup2, Bool.false_eq_true, if_false, hfil]
          exact ⟨hT, hF⟩
    | resolved =>
      by_cases hdup : s.rclicks.any (fun c => c.report_id == rid && c.client_ip == ip) = true
      · simp only [applyOp, castVote, add_resolved, hdup, if_true]
        exact ⟨hT, hF⟩
      · have hdup2 : s.rclicks.any (fun c => c.report_id == rid && c.client_ip == ip) = false :=
          Bool.not_eq_true _ ▸ hdup
        rcases hfil : s.reports.filter (fun q => q.id == rid) with _ | ⟨r, _ | ⟨r2, rest⟩⟩
        · simp only [applyOp, castVote, add_resolved, hdup2, Bool.false_eq_true, if_false, hfil]
          exact ⟨hT, hF⟩
        · have hs := add_resolved_success s rid ip r hdup2 hfil
          simp only [applyOp, castVote, hs]
          have hfresh : ip ∉ ipsFor s.rclicks rid := not_in_ipsFor_of_any_false _ _ _ hdup2
          have hT1 := tallyInv_resolved_succ s rid ip r hT hfil hfresh
          have hF1 := freshInv_resolved_succ s rid ip r hF hfil
          by_cases hth : 5 ≤ r.resolved_count + 1
          · rw [if_pos hth]
            exact ⟨tallyInv_filter_reports _ _ hT1, freshInv_filter_reports _ _ hF1⟩
          · rw [if_neg hth]
            exact ⟨hT1, hF1⟩
        · simp only [applyOp, castVote, add_resolved, hdup2, Bool.false_eq_true, if_false, hfil]
          exact ⟨hT, hF⟩
  | setStatus rid st now =>
    obtain ⟨h1, h2, h3, h4⟩ := update_report_status_fields s rid st now
    exact ⟨tallyInv_of_fields s _ h1 h2 h3 hT, freshInv_of_fields s _ h1 h2 h3 h4 hF⟩
  | deleteRep rid rf =>
    obtain ⟨h1, h2, h3, h4⟩ := delete_report_fields s rid rf
    exact ⟨tallyInv_of_fields s _ h1 h2 h3 hT, freshInv_of_fields s _ h1 h2 h3 h4 hF⟩

/-- Witness for C3: a concrete sighting vote on a concrete invariant state
preserves the invariant. -/
theorem c3_count_matches_identities_witness :
    TallyInv c1state ∧ FreshInv c1state ∧
      TallyInv (applyOp c1state (.vote .sighting 1 "x")) ∧
      FreshInv (applyOp c1state (.vote .sighting 1 "x")) := by
  have h1 : TallyInv c1state := by
    intro r hr
    have hre : r = c1row := List.mem_singleton.mp hr
    subst hre
    exact ⟨by decide, by decide⟩
  have h2 : FreshInv c1state := by
    refine ⟨?_, ?_, ?_⟩ <;> decide
  have h := c3_count_matches_identities c1state (.vote .sighting 1 "x") h1 h2
  exact ⟨h1, h2, h.1, h.2⟩

/-! ## C5 and C6 -/

/-- The haversine distance from a point to itself is zero. -/
lemma haversine_self (la lo : ℝ) : haversine la lo la lo = 0 := by
  unfold haversine atan2
  norm_num [sub_self, Real.sin_zero, Real.sqrt_zero, Real.sqrt_one, Real.arctan_zero]

/-- C5: with a reference point supplied (and all stored rows carrying
coordinates), a report is listed iff it is stored and its haversine distance
to the reference point is at most 1 km; a stored report at the reference
coordinates (distance zero) is always listed, one at distance 2 km never is;
without a reference point every stored report is listed. -/
theorem c5_proximity_filter (s : State) (ula ulo : ℝ) (r : ReportRow)
    (hco : s.reports.all (fun q => q.latitude.isSome && q.longitude.isSome) = true) :
    (listedIn (reports_handler_get s (some ula) (some ulo)) r ↔
      r ∈ s.reports ∧ haversine ula ulo (coordR r.latitude) (coordR r.longitude) ≤ 1) ∧
    (r ∈ s.reports → coordR r.latitude = ula → coordR r.longitude = ulo →
      listedIn (reports_handler_get s (some ula) (some ulo)) r) ∧
    (haversine ula ulo (coordR r.latitude) (coordR r.longitude) = 2 →
      ¬ listedIn (reports_handler_get s (some ula) (some ulo)) r) ∧
    (listedIn (reports_handler_get s none none) r ↔ r ∈ s.reports) := by
  have hres : reports_handler_get s (some ula) (some ulo) =
      .ok (s.reports.filter
        (fun q => decide (haversine ula ulo (coordR q.latitude) (coordR q.longitude) ≤ 1))) := by
    simp [reports_handler_get, hco]
  have hmem : listedIn (reports_handler_get s (some ula) (some ulo)) r ↔
      r ∈ s.reports ∧ haversine ula ulo (coordR r.latitude) (coordR r.longitude) ≤ 1 := by
    rw [hres]
    simp only [listedIn, List.mem_filter, decide_eq_true_iff]
  refine ⟨hmem, ?_, ?_, Iff.rfl⟩
  · intro hr hla hlo
    refine hmem.mpr ⟨hr, ?_⟩
    rw [hla, hlo, haversine_self]
    norm_num
  · intro h2 hin
    have hle := (hmem.mp hin).2
    rw [h2] at hle
    norm_num at hle

/-- A report row with coordinates at the reference point of the C5 witness. -/
def c5row : ReportRow :=
  { id := 1
    issue_type := "flooding"
    custom_issue := none
    description := ""
    location_name := "Manila"
    latitude := some 1
    longitude := some 0
    image_filename := none
    sightings_count := 0
    resolved_count := 0
    created_at := 0 }

/-- A one-report state for the C5 witness. -/
def c5state : State :=
  { reports := [c5row]
    sclicks := []
    rclicks := []
    blobs := []
    fileReports := []
    next_id := 2 }

/-- Witness for C5: the stored report at the caller's own coordinates is
listed. -/
theorem c5_proximity_filter_witness :
    c5state.reports.all (fun q => q.latitude.isSome && q.longitude.isSome) = true ∧
    listedIn (reports_handler_get c5state (some 1) (some 0)) c5row := by
  have h := c5_proximity_filter c5state 1 0 c5row (by decide)
  refine ⟨by decide, h.2.1 (List.mem_singleton.mpr rfl) ?_ ?_⟩
  · simp [coordR, c5row]
  · simp [coordR, c5row]

/-- First (older) report of the C6 counterexample state. -/
def c6row1 : ReportRow :=
  { id := 1
    issue_type := "flooding"
    custom_issue := none
    description := ""
    location_name := "Manila"
    latitude := some 1
    longitude := some 0
    image_filename := none
    sightings_count := 0
    resolved_count := 0
    created_at := 1 }

/-- Second (newer) report of the C6 counterexample state. -/
def c6row2 : ReportRow := { c6row1 with id := 2, created_at := 2 }

/-- A state whose store order is oldest-first. -/
def c6state : State :=
  { reports := [c6row1, c6row2]
    sclicks := []
    rclicks := []
    blobs := []
    fileReports := []
    next_id := 3 }

/-- C6 counterexample: the GET handler returns the rows in store order; with
the older report stored first the returned sequence is not sorted
most-recent-first. -/
theorem c6_counterexample :
    reports_handler_get c6state none none = .ok [c6row1, c6row2] ∧
    ¬ newestFirst [c6row1, c6row2] := by
  refine ⟨rfl, ?_⟩
  intro h
  simp only [newestFirst] at h
  exact absurd (List.chain'_cons.mp h).1 (by decide)

/-- C6 amended: the listing applies no ordering at all — the returned
sequence is a sublist of the stored sequence in store order, and without a
reference point it is exactly the stored sequence. -/
theorem c6_amended_store_order (s : State) (ula ulo : Option ℝ) (l : List ReportRow)
    (h : reports_handler_get s ula ulo = .ok l) :
    l.Sublist s.reports ∧ (ula = none ∨ ulo = none → l = s.reports) := by
  cases ula with
  | none =>
    cases ulo <;>
      · simp only [reports_handler_get] at h
        obtain rfl : s.reports = l := Except.ok.inj h
        exact ⟨List.Sublist.refl _, fun _ => rfl⟩
  | some a =>
    cases ulo with
    | none =>
      simp only [reports_handler_get] at h
      obtain rfl : s.reports = l := Except.ok.inj h
      exact ⟨List.Sublist.refl _, fun _ => rfl⟩
    | some b =>
      simp only [reports_handler_get] at h
      split at h
      · obtain rfl : _ = l := Except.ok.inj h
        refine ⟨List.filter_sublist _, ?_⟩
        rintro (hh | hh) <;> exact absurd hh (by simp)
      · cases h

/-- Witness for C6 amended at the concrete two-report state. -/
theorem c6_amended_store_order_witness :
    reports_handler_get c6state none none = .ok [c6row1, c6row2] ∧
    List.Sublist [c6row1, c6row2] c6state.reports :=
  ⟨rfl, (c6_amended_store_order c6state none none [c6row1, c6row2] rfl).1⟩

end UlatPh
